import Mathlib

/-!
Verification of the directus-typescript-gen schema partitioner and
declaration assembler.

The tool fetches an OpenAPI schema document from a Directus host,
classifies every schema entry by whether its key starts with the literal
"Items", renames it, and assembles four type declarations into one output
file.  Two behavioural variants exist in the sources:

* Variant A (`src/cli.ts`): keys starting with "Items" are renamed by
  replacing that leading "Items" with "App"; all other keys are renamed by
  prepending "Directus".  Besides the two aggregate type literals, every
  key except the reserved "x-metadata" also yields a standalone
  `export type` alias, and the whole output is wrapped in a
  `declare global` block.
* Variant B (the compiled `cli.js`): the property name inside each
  aggregate is the entry's `x-collection` field, used verbatim; no aliases
  and no global wrapper are produced.

The definitions below are a direct shallow embedding of those sources:
strings are built exactly as the code builds them (JavaScript's
`Array.join` is `joinWith`, `String.prototype.startsWith` is
`jsStartsWith`), the per-key loop bodies become structural recursion that
emits lines in the loop's push order, and the fetch/validate/write
pipeline becomes an `Except` computation returning the list of file
writes it performs.
-/

namespace DirectusTypeGen

/-- Embedding of JavaScript `s.startsWith(pre)`: the character sequence of
`pre` is a prefix of the character sequence of `s`. -/
def jsStartsWith (s pre : String) : Bool :=
  pre.data.isPrefixOf s.data

/-- Embedding of JavaScript `array.join(sep)` on an array of strings. -/
def joinWith (sep : String) : List String → String
  | [] => ""
  | [x] => x
  | x :: y :: rest => x ++ sep ++ joinWith sep (y :: rest)

/-- `schemaKey.startsWith("Items")`, the classification test of both
variants (`cli.ts` line 142, `cli.js` line 86). -/
def isAppCollection (schemaKey : String) : Bool :=
  jsStartsWith schemaKey "Items"

/-- Variant A renaming (`cli.ts` lines 140 to 148): an "Items"-prefixed
key becomes `"App" + key.slice(5)`, any other key becomes
`"Directus" + key`. -/
def formatedSchemaKey (schemaKey : String) : String :=
  if isAppCollection schemaKey then "App" ++ schemaKey.drop 5
  else "Directus" ++ schemaKey

/-- Variant A property line (`cli.ts` line 151):
`  "<formatedSchemaKey>": components["schemas"]["<schemaKey>"];`. -/
def propertyLine (schemaKey : String) : String :=
  "  \"" ++ formatedSchemaKey schemaKey ++ "\": components[\"schemas\"][\"" ++
    schemaKey ++ "\"];"

/-- Variant A standalone alias line (`cli.ts` line 159):
`export type <formatedSchemaKey> = components["schemas"]["<schemaKey>"];`. -/
def exportLine (schemaKey : String) : String :=
  "export type " ++ formatedSchemaKey schemaKey ++ " = components[\"schemas\"][\"" ++
    schemaKey ++ "\"];"

/-- The three lists the Variant A loop pushes into:
`exportAppCollectionsProperties`, `exportDirectusCollectionsProperties`
and `exportAllCollectionsLines` of `cli.ts`. -/
structure PartitionA where
  app : List String
  directus : List String
  aliases : List String
deriving DecidableEq

/-- The Variant A loop over `Object.keys(spec.components.schemas)`
(`cli.ts` lines 137 to 162): each key contributes its property line to the
app list when `isAppCollection` holds and to the directus list otherwise,
and contributes an alias line unless the key is `"x-metadata"`.  Lines are
emitted in enumeration order, matching the loop's `push` order. -/
def processSchemaKeys : List String → PartitionA
  | [] => ⟨[], [], []⟩
  | schemaKey :: rest =>
    let r := processSchemaKeys rest
    ⟨if isAppCollection schemaKey then propertyLine schemaKey :: r.app else r.app,
     if isAppCollection schemaKey then r.directus else propertyLine schemaKey :: r.directus,
     if schemaKey ≠ "x-metadata" then exportLine schemaKey :: r.aliases else r.aliases⟩

/-- Variant B property line (`cli.js` line 85):
`  <collectionId>: components["schemas"]["<schemaKey>"];` where
`collectionId` is the entry's `x-collection` field. -/
def lineB (schemaKey collectionId : String) : String :=
  "  " ++ collectionId ++ ": components[\"schemas\"][\"" ++ schemaKey ++ "\"];"

/-- The two lists the Variant B loop pushes into:
`exportUserCollectionsProperties` and
`exportDirectusCollectionsProperties` of `cli.js`. -/
structure PartitionB where
  user : List String
  directus : List String
deriving DecidableEq

/-- The Variant B loop over `Object.entries(spec.components.schemas)`
(`cli.js` lines 83 to 90): each entry is a pair of its schema key and its
`x-collection` field; the line goes to the user list when the key starts
with "Items" and to the directus list otherwise. -/
def processSchemaEntries : List (String × String) → PartitionB
  | [] => ⟨[], []⟩
  | (schemaKey, collectionId) :: rest =>
    let r := processSchemaEntries rest
    if isAppCollection schemaKey then ⟨lineB schemaKey collectionId :: r.user, r.directus⟩
    else ⟨r.user, lineB schemaKey collectionId :: r.directus⟩

/-- An aggregate type literal, e.g. `exportAppCollectionsType` of
`cli.ts` lines 166 to 168:
`export type <name> = {\n<props.join("\n")>\n};\n`. -/
def exportTypeLiteral (typeName : String) (props : List String) : String :=
  "export type " ++ typeName ++ " = \x7b\n" ++ joinWith "\n" props ++ "\n\x7d;\n"

/-- The all-collections aggregate (`cli.ts` line 174, `cli.js` line 93):
`export type <allName> = <dirName> & <appName>;\n`. -/
def exportCollectionsType (allName dirName appName : String) : String :=
  "export type " ++ allName ++ " = " ++ dirName ++ " & " ++ appName ++ ";\n"

/-- Structural-intersection semantics of a TypeScript intersection
`D & A` of two object type literals: its property list is the properties
of `D` together with the properties of `A`. -/
def intersectionProps (dirProps appProps : List String) : List String :=
  dirProps ++ appProps

/-- Variant A assembly (`cli.ts` lines 176 to 184): the seven fragments
joined with `"\n"`, wrapped between `declare global {` and `}`. -/
def sourceA (baseSource appName dirName allName : String) (keys : List String) : String :=
  joinWith "\n"
    ["declare global \x7b",
     baseSource,
     exportTypeLiteral appName (processSchemaKeys keys).app,
     exportTypeLiteral dirName (processSchemaKeys keys).directus,
     exportCollectionsType allName dirName appName,
     joinWith "\n" (processSchemaKeys keys).aliases,
     "\x7d"]

/-- Variant B assembly (`cli.js` lines 94 to 99): the four fragments
joined with `"\n"`, with no wrapper. -/
def sourceB (baseSource appName dirName allName : String)
    (entries : List (String × String)) : String :=
  joinWith "\n"
    [baseSource,
     exportTypeLiteral appName (processSchemaEntries entries).user,
     exportTypeLiteral dirName (processSchemaEntries entries).directus,
     exportCollectionsType allName dirName appName]

/-- The parsed `/server/specs/oas` response: an optional `errors` field
(`some errs` models a present field holding the list `errs`, `none` a
document without that field) and the keys of `components.schemas` in
enumeration order. -/
structure SpecResponse where
  errors : Option (List String)
  schemas : List String
deriving DecidableEq

/-- The fatal failure of the validation gate: the error list printed to
standard error and the message of the thrown `Error`. -/
structure FatalError where
  printed : List String
  message : String
deriving DecidableEq

/-- `assertSpecHasNoErrors` (`cli.ts` lines 112 to 117): throws exactly
when the document has an `errors` field whose list has nonzero length
(JavaScript truthiness of `spec.errors.length`), printing the list. -/
def assertSpecHasNoErrors (spec : SpecResponse) : Except FatalError Unit :=
  match spec.errors with
  | some errs =>
    if errs.length ≠ 0 then
      Except.error ⟨errs, "Could not generate TypeScript definitions"⟩
    else Except.ok ()
  | none => Except.ok ()

/-- The post-fetch pipeline of `cli.ts` lines 119 to 188: validate the
document, then optionally dump the serialized spec to `specOutFile`, run
the external converter (`openApiTs`) for the base text, assemble the
Variant A source and write it to `outFile`.  The result is the list of
`(path, contents)` file writes performed; a validation failure
short-circuits before any write. -/
def runPipeline (spec : SpecResponse) (specOutFile : Option String) (outFile : String)
    (stringify : SpecResponse → String) (openApiTs : SpecResponse → String)
    (appName dirName allName : String) : Except FatalError (List (String × String)) :=
  match assertSpecHasNoErrors spec with
  | Except.error e => Except.error e
  | Except.ok _ =>
    let specWrites : List (String × String) :=
      match specOutFile with
      | some p => [(p, stringify spec)]
      | none => []
    Except.ok (specWrites ++
      [(outFile, sourceA (openApiTs spec) appName dirName allName spec.schemas)])

/-- The credential obtained by the authenticator together with the number
of login network requests it performed. -/
structure AuthOutcome where
  token : String
  loginRequests : Nat
deriving DecidableEq

/-- The authenticator (`cli.ts` lines 67 to 87): when
`passwordIsStaticToken` is set the password itself is the token and no
login request happens; otherwise one `POST /auth/login` exchange is
performed and its `data.access_token` field (modelled by the external
function `loginAccessToken`) becomes the token. -/
def authenticate (passwordIsStaticToken : Bool) (email password : String)
    (loginAccessToken : String → String → String) : AuthOutcome :=
  if passwordIsStaticToken then ⟨password, 0⟩
  else ⟨loginAccessToken email password, 1⟩

/-- The `Authorization` header of the spec fetch (`cli.ts` line 107). -/
def bearerHeader (token : String) : String :=
  "Bearer " ++ token

/-- The Variant A app list is the property lines of the "Items"-prefixed
keys, in enumeration order. -/
theorem processSchemaKeys_app_eq (keys : List String) :
    (processSchemaKeys keys).app = (keys.filter isAppCollection).map propertyLine := by
  induction keys with
  | nil => rfl
  | cons k ks ih =>
    cases h : isAppCollection k <;>
      simp [processSchemaKeys, List.filter_cons, h, ih]

/-- The Variant A directus list is the property lines of the keys not
prefixed with "Items", in enumeration order. -/
theorem processSchemaKeys_directus_eq (keys : List String) :
    (processSchemaKeys keys).directus
      = (keys.filter fun k => !isAppCollection k).map propertyLine := by
  induction keys with
  | nil => rfl
  | cons k ks ih =>
    cases h : isAppCollection k <;>
      simp [processSchemaKeys, List.filter_cons, h, ih]

/-- The Variant A alias list is the export lines of all keys other than
"x-metadata", in enumeration order. -/
theorem processSchemaKeys_aliases_eq (keys : List String) :
    (processSchemaKeys keys).aliases
      = (keys.filter fun k => k != "x-metadata").map exportLine := by
  induction keys with
  | nil => rfl
  | cons k ks ih =>
    by_cases h : k = "x-metadata"
    · subst h
      simp [processSchemaKeys, List.filter_cons, ih]
    · simp [processSchemaKeys, List.filter_cons, h, ih]

/-- The Variant B user list is the lines of the "Items"-prefixed entries,
in enumeration order. -/
theorem processSchemaEntries_user_eq (entries : List (String × String)) :
    (processSchemaEntries entries).user
      = (entries.filter fun e => isAppCollection e.1).map fun e => lineB e.1 e.2 := by
  induction entries with
  | nil => rfl
  | cons e es ih =>
    obtain ⟨k, c⟩ := e
    cases h : isAppCollection k <;>
      simp [processSchemaEntries, List.filter_cons, h, ih]

/-- The Variant B directus list is the lines of the entries not prefixed
with "Items", in enumeration order. -/
theorem processSchemaEntries_directus_eq (entries : List (String × String)) :
    (processSchemaEntries entries).directus
      = (entries.filter fun e => !isAppCollection e.1).map fun e => lineB e.1 e.2 := by
  induction entries with
  | nil => rfl
  | cons e es ih =>
    obtain ⟨k, c⟩ := e
    cases h : isAppCollection k <;>
      simp [processSchemaEntries, List.filter_cons, h, ih]

/-- String concatenation reassociates. -/
theorem strAppend_assoc (a b c : String) : a ++ b ++ c = a ++ (b ++ c) := by
  apply String.ext
  simp [String.data_append, List.append_assoc]

/-- An app property line never coincides with a directus property line:
the former's name starts with `App`, the latter's with `Directus`. -/
theorem propertyLine_app_ne_directus (k k' : String)
    (hk : isAppCollection k = true) (hk' : isAppCollection k' = false) :
    propertyLine k ≠ propertyLine k' := by
  intro h
  have h2 : (propertyLine k).data = (propertyLine k').data := by rw [h]
  simp [propertyLine, formatedSchemaKey, hk, hk', String.data_append] at h2

/-- Every key contributes exactly one property line, so the two category
lists' lengths add up to the number of keys. -/
theorem processSchemaKeys_length (keys : List String) :
    (processSchemaKeys keys).app.length + (processSchemaKeys keys).directus.length
      = keys.length := by
  induction keys with
  | nil => rfl
  | cons k ks ih =>
    cases h : isAppCollection k <;> simp [processSchemaKeys, h] <;> omega

/-- Claim C1: every schema key starting with the literal "Items" yields a
property line in the app category list; under Variant A its effective
name is the key with the leading "Items" replaced by "App" (so key
"ItemsArticle" yields the app line
`  "AppArticle": components["schemas"]["ItemsArticle"];`), and under
Variant B the property name is the entry's `x-collection` field used
verbatim. -/
theorem items_keys_in_app_category
    (keys : List String) (entries : List (String × String)) (k cid : String)
    (hk : isAppCollection k = true) :
    (k ∈ keys →
      ("  \"" ++ ("App" ++ k.drop 5) ++ "\": components[\"schemas\"][\"" ++ k ++ "\"];")
        ∈ (processSchemaKeys keys).app)
    ∧ ((k, cid) ∈ entries →
      ("  " ++ cid ++ ": components[\"schemas\"][\"" ++ k ++ "\"];")
        ∈ (processSchemaEntries entries).user)
    ∧ (processSchemaKeys ["ItemsArticle", "Users"]).app
        = ["  \"AppArticle\": components[\"schemas\"][\"ItemsArticle\"];"] := by
  refine ⟨?_, ?_, by decide⟩
  · intro hmem
    have hline : propertyLine k
        = "  \"" ++ ("App" ++ k.drop 5) ++ "\": components[\"schemas\"][\"" ++ k ++ "\"];" := by
      simp [propertyLine, formatedSchemaKey, hk]
    rw [processSchemaKeys_app_eq, ← hline]
    exact List.mem_map_of_mem _ (List.mem_filter.mpr ⟨hmem, hk⟩)
  · intro hmem
    have hline : lineB k cid
        = "  " ++ cid ++ ": components[\"schemas\"][\"" ++ k ++ "\"];" := rfl
    rw [processSchemaEntries_user_eq, ← hline]
    exact List.mem_map.mpr ⟨(k, cid), List.mem_filter.mpr ⟨hmem, hk⟩, rfl⟩

/-- Witness for C1 at the spec's own example: key "ItemsArticle" in a
two-key document, and a Variant B entry carrying `x-collection`
"articles". -/
theorem items_keys_in_app_category_witness :
    ("  \"AppArticle\": components[\"schemas\"][\"ItemsArticle\"];")
      ∈ (processSchemaKeys ["ItemsArticle", "Users"]).app
    ∧ ("  articles: components[\"schemas\"][\"ItemsArticle\"];")
      ∈ (processSchemaEntries [("ItemsArticle", "articles"), ("Users", "users")]).user := by
  have h := items_keys_in_app_category ["ItemsArticle", "Users"]
    [("ItemsArticle", "articles"), ("Users", "users")] "ItemsArticle" "articles" (by decide)
  exact ⟨h.1 (by decide), h.2.1 (by decide)⟩

/-- Claim C2: every schema key not starting with "Items" yields a
property line in the directus category list, and under Variant A its
effective name is the key with "Directus" prepended. -/
theorem other_keys_in_directus_category
    (keys : List String) (entries : List (String × String)) (k cid : String)
    (hk : isAppCollection k = false) :
    (k ∈ keys →
      ("  \"" ++ ("Directus" ++ k) ++ "\": components[\"schemas\"][\"" ++ k ++ "\"];")
        ∈ (processSchemaKeys keys).directus)
    ∧ ((k, cid) ∈ entries →
      ("  " ++ cid ++ ": components[\"schemas\"][\"" ++ k ++ "\"];")
        ∈ (processSchemaEntries entries).directus)
    ∧ (processSchemaKeys ["ItemsArticle", "Users"]).directus
        = ["  \"DirectusUsers\": components[\"schemas\"][\"Users\"];"] := by
  refine ⟨?_, ?_, by decide⟩
  · intro hmem
    have hline : propertyLine k
        = "  \"" ++ ("Directus" ++ k) ++ "\": components[\"schemas\"][\"" ++ k ++ "\"];" := by
      simp [propertyLine, formatedSchemaKey, hk]
    rw [processSchemaKeys_directus_eq, ← hline]
    exact List.mem_map_of_mem _ (List.mem_filter.mpr ⟨hmem, by simp [hk]⟩)
  · intro hmem
    have hline : lineB k cid
        = "  " ++ cid ++ ": components[\"schemas\"][\"" ++ k ++ "\"];" := rfl
    rw [processSchemaEntries_directus_eq, ← hline]
    exact List.mem_map.mpr ⟨(k, cid), List.mem_filter.mpr ⟨hmem, by simp [hk]⟩, rfl⟩

/-- Witness for C2 at the spec's own example: key "Users" goes to the
directus list in both variants. -/
theorem other_keys_in_directus_category_witness :
    ("  \"DirectusUsers\": components[\"schemas\"][\"Users\"];")
      ∈ (processSchemaKeys ["ItemsArticle", "Users"]).directus
    ∧ ("  users: components[\"schemas\"][\"Users\"];")
      ∈ (processSchemaEntries [("ItemsArticle", "articles"), ("Users", "users")]).directus := by
  have h := other_keys_in_directus_category ["ItemsArticle", "Users"]
    [("ItemsArticle", "articles"), ("Users", "users")] "Users" "users" (by decide)
  exact ⟨h.1 (by decide), h.2.1 (by decide)⟩

/-- Claim C3: the synthesized all-collections aggregate is exactly the
structural intersection of the directus and app aggregates: the emitted
declaration is `export type <all> = <directus> & <app>;`, and under the
structural semantics of intersection a property belongs to the combined
aggregate exactly when it belongs to one of the two sub-aggregates. -/
theorem all_collections_is_intersection
    (keys : List String) (allName dirName appName l : String) :
    exportCollectionsType allName dirName appName
      = "export type " ++ allName ++ " = " ++ dirName ++ " & " ++ appName ++ ";\n"
    ∧ (l ∈ intersectionProps (processSchemaKeys keys).directus (processSchemaKeys keys).app
        ↔ l ∈ (processSchemaKeys keys).directus ∨ l ∈ (processSchemaKeys keys).app) := by
  exact ⟨rfl, by simp [intersectionProps]⟩

/-- Claim C5: with `passwordIsStaticToken` set, the authenticator makes
no login request and the bearer credential of the spec fetch is the
supplied password, unchanged. -/
theorem static_token_skips_login (email password : String)
    (loginAccessToken : String → String → String) :
    (authenticate true email password loginAccessToken).loginRequests = 0
    ∧ (authenticate true email password loginAccessToken).token = password
    ∧ bearerHeader (authenticate true email password loginAccessToken).token
        = "Bearer " ++ password :=
  ⟨rfl, rfl, rfl⟩

/-- Claim C6: within each category list, in both variants, the property
lines appear exactly in the order their keys occur in the source
document's key enumeration (a filter of the enumeration preserving its
order); the final conjunct shows a run where this differs from
alphabetical order. -/
theorem category_lists_follow_enumeration_order
    (keys : List String) (entries : List (String × String)) :
    (processSchemaKeys keys).app = (keys.filter isAppCollection).map propertyLine
    ∧ (processSchemaKeys keys).directus
        = (keys.filter fun k => !isAppCollection k).map propertyLine
    ∧ (processSchemaEntries entries).user
        = (entries.filter fun e => isAppCollection e.1).map (fun e => lineB e.1 e.2)
    ∧ (processSchemaEntries entries).directus
        = (entries.filter fun e => !isAppCollection e.1).map (fun e => lineB e.1 e.2)
    ∧ (processSchemaKeys ["ItemsB", "ItemsA"]).app
        = [propertyLine "ItemsB", propertyLine "ItemsA"] :=
  ⟨processSchemaKeys_app_eq keys, processSchemaKeys_directus_eq keys,
   processSchemaEntries_user_eq entries, processSchemaEntries_directus_eq entries,
   by decide⟩

/-- Claim C4: a fetched document with a non-empty error list makes the
pipeline fail with the fatal error that prints that list, and no file
write (spec dump or final output) is performed: the run never returns a
write list. -/
theorem error_list_aborts_without_writes
    (spec : SpecResponse) (errs : List String)
    (h : spec.errors = some errs) (hne : errs ≠ [])
    (specOutFile : Option String) (outFile : String)
    (stringify openApiTs : SpecResponse → String) (appName dirName allName : String) :
    runPipeline spec specOutFile outFile stringify openApiTs appName dirName allName
      = Except.error ⟨errs, "Could not generate TypeScript definitions"⟩
    ∧ ∀ writes, runPipeline spec specOutFile outFile stringify openApiTs appName dirName allName
        ≠ Except.ok writes := by
  have hgate : assertSpecHasNoErrors spec
      = Except.error ⟨errs, "Could not generate TypeScript definitions"⟩ := by
    simp [assertSpecHasNoErrors, h, List.length_eq_zero, hne]
  refine ⟨?_, ?_⟩
  · simp [runPipeline, hgate]
  · intro writes hw
    simp [runPipeline, hgate] at hw

/-- Witness for C4: a document whose error list is `["boom"]` aborts the
pipeline with the fatal error printing that list. -/
theorem error_list_aborts_without_writes_witness :
    runPipeline ⟨some ["boom"], ["Users"]⟩ none "out.ts"
        (fun _ => "SPEC") (fun _ => "BASE") "AppCollections" "DirectusCollections" "Collections"
      = Except.error ⟨["boom"], "Could not generate TypeScript definitions"⟩ :=
  (error_list_aborts_without_writes ⟨some ["boom"], ["Users"]⟩ ["boom"] rfl (by decide)
    none "out.ts" (fun _ => "SPEC") (fun _ => "BASE")
    "AppCollections" "DirectusCollections" "Collections").1

/-- Claim C7: under Variant A the alias list holds, for every key except
the reserved "x-metadata", one standalone `export type` alias named by
the rewritten key and referencing the schema entry by its original key;
"x-metadata" yields no alias, as the closed run with keys
["x-metadata", "Users"] shows. -/
theorem alias_generation_skips_x_metadata (keys : List String) (k : String) :
    (processSchemaKeys keys).aliases
      = (keys.filter fun s => s != "x-metadata").map exportLine
    ∧ (k ∈ keys → k ≠ "x-metadata" → exportLine k ∈ (processSchemaKeys keys).aliases)
    ∧ (processSchemaKeys ["x-metadata", "Users"]).aliases
        = ["export type DirectusUsers = components[\"schemas\"][\"Users\"];"] := by
  refine ⟨processSchemaKeys_aliases_eq keys, ?_, by decide⟩
  intro hmem hne
  rw [processSchemaKeys_aliases_eq]
  exact List.mem_map_of_mem _ (List.mem_filter.mpr ⟨hmem, by simp [hne]⟩)

/-- Witness for C7: in the document with keys ["x-metadata", "Users"],
the key "Users" gets its alias and "x-metadata" gets none. -/
theorem alias_generation_skips_x_metadata_witness :
    exportLine "Users" ∈ (processSchemaKeys ["x-metadata", "Users"]).aliases
    ∧ (processSchemaKeys ["x-metadata", "Users"]).aliases
        = ["export type DirectusUsers = components[\"schemas\"][\"Users\"];"] := by
  have h := alias_generation_skips_x_metadata ["x-metadata", "Users"] "Users"
  exact ⟨h.2.1 (by decide) (by decide), h.2.2⟩

/-- Claim C9: the partition is total and disjoint: the two category
lists' lengths add up to the number of keys, each key's property line
lands in exactly one of the two lists according to the "Items" test, and
the reserved key "x-metadata" is still classified as a directus entry
whose property name is "Directusx-metadata". -/
theorem partition_total_disjoint (keys : List String) (k : String) (hk : k ∈ keys) :
    ((processSchemaKeys keys).app.length + (processSchemaKeys keys).directus.length
        = keys.length)
    ∧ (isAppCollection k = true →
        propertyLine k ∈ (processSchemaKeys keys).app
        ∧ propertyLine k ∉ (processSchemaKeys keys).directus)
    ∧ (isAppCollection k = false →
        propertyLine k ∈ (processSchemaKeys keys).directus
        ∧ propertyLine k ∉ (processSchemaKeys keys).app)
    ∧ ("x-metadata" ∈ keys →
        propertyLine "x-metadata" ∈ (processSchemaKeys keys).directus
        ∧ propertyLine "x-metadata"
            = "  \"Directusx-metadata\": components[\"schemas\"][\"x-metadata\"];") := by
  refine ⟨processSchemaKeys_length keys, ?_, ?_, ?_⟩
  · intro happ
    refine ⟨?_, ?_⟩
    · rw [processSchemaKeys_app_eq]
      exact List.mem_map_of_mem _ (List.mem_filter.mpr ⟨hk, happ⟩)
    · rw [processSchemaKeys_directus_eq]
      intro hcon
      obtain ⟨k', hk', heq⟩ := List.mem_map.mp hcon
      have hk'false : isAppCollection k' = false := by
        have := (List.mem_filter.mp hk').2
        simpa using this
      exact propertyLine_app_ne_directus k k' happ hk'false heq.symm
  · intro hdir
    refine ⟨?_, ?_⟩
    · rw [processSchemaKeys_directus_eq]
      exact List.mem_map_of_mem _ (List.mem_filter.mpr ⟨hk, by simp [hdir]⟩)
    · rw [processSchemaKeys_app_eq]
      intro hcon
      obtain ⟨k', hk', heq⟩ := List.mem_map.mp hcon
      have hk'true : isAppCollection k' = true := (List.mem_filter.mp hk').2
      exact propertyLine_app_ne_directus k' k hk'true hdir heq
  · intro hmeta
    refine ⟨?_, by decide⟩
    rw [processSchemaKeys_directus_eq]
    exact List.mem_map_of_mem _ (List.mem_filter.mpr ⟨hmeta, by decide⟩)

/-- Witness for C9 on the document with keys
["ItemsArticle", "x-metadata"]: one line per list, "ItemsArticle" in the
app list only, and "x-metadata" in the directus list under the name
"Directusx-metadata". -/
theorem partition_total_disjoint_witness :
    ((processSchemaKeys ["ItemsArticle", "x-metadata"]).app.length
        + (processSchemaKeys ["ItemsArticle", "x-metadata"]).directus.length = 2)
    ∧ propertyLine "ItemsArticle" ∈ (processSchemaKeys ["ItemsArticle", "x-metadata"]).app
    ∧ propertyLine "ItemsArticle" ∉ (processSchemaKeys ["ItemsArticle", "x-metadata"]).directus
    ∧ propertyLine "x-metadata" ∈ (processSchemaKeys ["ItemsArticle", "x-metadata"]).directus
    ∧ propertyLine "x-metadata"
        = "  \"Directusx-metadata\": components[\"schemas\"][\"x-metadata\"];" := by
  have h := partition_total_disjoint ["ItemsArticle", "x-metadata"] "ItemsArticle" (by decide)
  have happ := h.2.1 (by decide)
  have hmeta := h.2.2.2 (by decide)
  exact ⟨h.1, happ.1, happ.2, hmeta.1, hmeta.2⟩

/-- Claim C10: the validation gate raises an error exactly when the
document has an `errors` field holding a non-empty list; a document whose
`errors` field holds an empty list passes the gate, and the pipeline then
proceeds to produce its write list, including the final output file. -/
theorem gate_iff_nonempty_errors
    (spec : SpecResponse) (specOutFile : Option String) (outFile : String)
    (stringify openApiTs : SpecResponse → String) (appName dirName allName : String) :
    ((∃ e, assertSpecHasNoErrors spec = Except.error e)
      ↔ ∃ errs, spec.errors = some errs ∧ errs ≠ [])
    ∧ (spec.errors = some [] →
        assertSpecHasNoErrors spec = Except.ok ()
        ∧ ∃ writes,
            runPipeline spec specOutFile outFile stringify openApiTs appName dirName allName
              = Except.ok writes
            ∧ (outFile, sourceA (openApiTs spec) appName dirName allName spec.schemas)
                ∈ writes) := by
  constructor
  · constructor
    · rintro ⟨e, he⟩
      match hsp : spec.errors with
      | none => simp [assertSpecHasNoErrors, hsp] at he
      | some errs =>
        refine ⟨errs, rfl, ?_⟩
        intro hnil
        subst hnil
        simp [assertSpecHasNoErrors, hsp] at he
    · rintro ⟨errs, hsp, hne⟩
      refine ⟨⟨errs, "Could not generate TypeScript definitions"⟩, ?_⟩
      simp [assertSpecHasNoErrors, hsp, List.length_eq_zero, hne]
  · intro hempty
    have hok : assertSpecHasNoErrors spec = Except.ok () := by
      simp [assertSpecHasNoErrors, hempty]
    refine ⟨hok, ?_⟩
    refine ⟨(match specOutFile with
      | some p => [(p, stringify spec)]
      | none => []) ++
        [(outFile, sourceA (openApiTs spec) appName dirName allName spec.schemas)], ?_, ?_⟩
    · simp [runPipeline, hok]
    · exact List.mem_append_right _ (List.mem_singleton.mpr rfl)

/-- Witness for C10: a document carrying `errors: []` passes the gate and
the pipeline writes the output file. -/
theorem gate_iff_nonempty_errors_witness :
    assertSpecHasNoErrors ⟨some [], ["Users"]⟩ = Except.ok ()
    ∧ ∃ writes,
        runPipeline ⟨some [], ["Users"]⟩ none "out.ts" (fun _ => "SPEC") (fun _ => "BASE")
            "AppCollections" "DirectusCollections" "Collections"
          = Except.ok writes
        ∧ ("out.ts", sourceA "BASE" "AppCollections" "DirectusCollections" "Collections"
            ["Users"]) ∈ writes :=
  (gate_iff_nonempty_errors ⟨some [], ["Users"]⟩ none "out.ts" (fun _ => "SPEC")
    (fun _ => "BASE") "AppCollections" "DirectusCollections" "Collections").2 rfl

/-- Claim C8: the assembled output contains, in order, the base text
(the converter's output, which ends with a newline, modelled here as
`b ++ "\n"`), the app aggregate, the directus aggregate, the
all-collections aggregate and, under Variant A only, the standalone
aliases, each block separated from the next by a blank line (the `"\n\n"`
separators below); Variant A wraps the whole concatenation between
`declare global {` before the base text and `}` after the last block,
while Variant B emits the unwrapped concatenation. -/
theorem assembled_output_order_and_wrapping
    (b appName dirName allName : String) (keys : List String)
    (entries : List (String × String)) :
    (∃ a d c,
      exportTypeLiteral appName (processSchemaKeys keys).app = a ++ "\n"
      ∧ exportTypeLiteral dirName (processSchemaKeys keys).directus = d ++ "\n"
      ∧ exportCollectionsType allName dirName appName = c ++ "\n"
      ∧ sourceA (b ++ "\n") appName dirName allName keys
          = "declare global \x7b\n" ++ b ++ "\n\n" ++ a ++ "\n\n" ++ d ++ "\n\n" ++ c ++ "\n\n"
            ++ joinWith "\n" (processSchemaKeys keys).aliases ++ "\n\x7d")
    ∧ (∃ a d,
      exportTypeLiteral appName (processSchemaEntries entries).user = a ++ "\n"
      ∧ exportTypeLiteral dirName (processSchemaEntries entries).directus = d ++ "\n"
      ∧ sourceB (b ++ "\n") appName dirName allName entries
          = b ++ "\n\n" ++ a ++ "\n\n" ++ d ++ "\n\n"
            ++ exportCollectionsType allName dirName appName) := by
  constructor
  · refine ⟨"export type " ++ appName ++ " = \x7b\n" ++
        joinWith "\n" (processSchemaKeys keys).app ++ "\n\x7d;",
      "export type " ++ dirName ++ " = \x7b\n" ++
        joinWith "\n" (processSchemaKeys keys).directus ++ "\n\x7d;",
      "export type " ++ allName ++ " = " ++ dirName ++ " & " ++ appName ++ ";", ?_, ?_, ?_, ?_⟩
    · apply String.ext
      simp [exportTypeLiteral, String.data_append, List.append_assoc]
    · apply String.ext
      simp [exportTypeLiteral, String.data_append, List.append_assoc]
    · apply String.ext
      simp [exportCollectionsType, String.data_append, List.append_assoc]
    · apply String.ext
      simp [sourceA, joinWith, exportTypeLiteral, exportCollectionsType,
        String.data_append, List.append_assoc]
  · refine ⟨"export type " ++ appName ++ " = \x7b\n" ++
        joinWith "\n" (processSchemaEntries entries).user ++ "\n\x7d;",
      "export type " ++ dirName ++ " = \x7b\n" ++
        joinWith "\n" (processSchemaEntries entries).directus ++ "\n\x7d;", ?_, ?_, ?_⟩
    · apply String.ext
      simp [exportTypeLiteral, String.data_append, List.append_assoc]
    · apply String.ext
      simp [exportTypeLiteral, String.data_append, List.append_assoc]
    · apply String.ext
      simp [sourceB, joinWith, exportTypeLiteral, exportCollectionsType,
        String.data_append, List.append_assoc]

end DirectusTypeGen
